import Mathlib

/-!
# Verification of the crime-dashboard normalization and aggregation pipeline

Shallow embedding of `src/app.py`: the `load_and_clean` pipeline
(column-name stripping, unnamed/empty column dropping, merged
State+Year column detection and splitting, Year/State normalization,
ID insertion, numeric coercion of crime columns with the zero-sum
fallback), the `top5_from_df` aggregator, and the `update_year` /
`update_state` request handlers.

Tables are modelled column-major.  A cell is a string, a number, or a
missing value (pandas `NaN`).  Numeric cell values are modelled as
integers (`Int`); the source stores them as machine floats, but every
behaviour the claims exercise (comma stripping, parse-failure-to-zero,
sign, summation, equality filtering) is integral.
-/

namespace Crimes

/-- A single table cell: a raw string, a numeric value, or missing
(pandas `NaN`). -/
inductive Cell where
  | str : String → Cell
  | num : Int → Cell
  | na : Cell
deriving DecidableEq, Repr

/-- A named column of cells (one entry of `df.columns` with its data). -/
structure Column where
  name : String
  cells : List Cell
deriving DecidableEq, Repr

/-- A data frame: row count (the index length), columns in order, and the
optional `attrs['crime_cols']` annotation (`none` = attribute absent). -/
structure Frame where
  nrows : Nat
  cols : List Column
  crimeCols : Option (List String)
deriving DecidableEq, Repr

/-! ## Strings and numbers: models of `str()`, `strip()`, `pd.to_numeric` -/

/-- Decimal digit character for `d < 10` (used by integer printing). -/
def digitChar : Nat → Char
  | 0 => '0' | 1 => '1' | 2 => '2' | 3 => '3' | 4 => '4'
  | 5 => '5' | 6 => '6' | 7 => '7' | 8 => '8' | _ => '9'

/-- Decimal digits of a natural number, most significant first. -/
def natToDigits (n : Nat) : List Char :=
  if _h : n < 10 then [digitChar n]
  else natToDigits (n / 10) ++ [digitChar (n % 10)]
termination_by n
decreasing_by exact Nat.div_lt_self (by omega) (by omega)

/-- Value of a list of decimal digit characters. -/
def digitsToNat (l : List Char) : Nat :=
  l.foldl (fun a c => a * 10 + (c.toNat - 48)) 0

/-- Decimal rendering of an integer (model of Python `str` on a number). -/
def intToStr (n : Int) : String :=
  if n < 0 then ⟨'-' :: natToDigits n.natAbs⟩ else ⟨natToDigits n.toNat⟩

/-- `astype(str)` on one cell: strings unchanged, numbers printed,
`NaN` becomes the string `"nan"`. -/
def cellToStr : Cell → String
  | .str s => s
  | .num n => intToStr n
  | .na => "nan"

/-- Model of Python `str.strip` on a character list. -/
def stripChars (l : List Char) : List Char :=
  ((l.dropWhile Char.isWhitespace).reverse.dropWhile Char.isWhitespace).reverse

/-- Model of Python `str.strip`. -/
def pyStrip (s : String) : String := ⟨stripChars s.toList⟩

/-- Model of `str.replace(',', '')`: delete every comma. -/
def removeCommas (s : String) : String := ⟨s.toList.filter (fun c => c ≠ ',')⟩

/-- Model of `pd.to_numeric(·, errors='coerce')` on one string: an
optional minus sign followed by decimal digits parses to that integer,
anything else (including `""` and `"nan"`) is unparseable (`none`). -/
def parseNumeric (s : String) : Option Int :=
  match s.toList with
  | [] => none
  | a :: rest =>
    if a = '-' then
      if !rest.isEmpty && rest.all Char.isDigit then
        some (-(digitsToNat rest : Int))
      else none
    else if (a :: rest).all Char.isDigit then some ((digitsToNat (a :: rest) : Int))
    else none

/-- `pd.to_numeric(·, errors='coerce')` on one cell: numbers kept,
strings parsed, failures and `NaN` give `NaN`. -/
def toNumericCell : Cell → Cell
  | .str s => match parseNumeric s with
    | some n => .num n
    | none => .na
  | .num n => .num n
  | .na => .na

/-- One cell of line 56 of `app.py`:
`pd.to_numeric(astype(str).str.replace(',', '').str.strip().replace('', '0'),
errors='coerce').fillna(0)`. -/
def coerceCell (c : Cell) : Cell :=
  let s1 := pyStrip (removeCommas (cellToStr c))
  let s2 := if s1 = "" then "0" else s1
  Cell.num ((parseNumeric s2).getD 0)

/-- Is the cell a number? -/
def isNum : Cell → Bool
  | .num _ => true
  | _ => false

/-! ## Frame operations -/

/-- The reserved column names of line 51: `non_crime = {'ID','State','Year'}`. -/
def nonCrime (n : String) : Bool := n = "ID" || n = "State" || n = "Year"

/-- Column lookup by name (`df[n]`, first matching column). -/
def getCol (f : Frame) (n : String) : Option Column :=
  f.cols.find? (fun c => c.name = n)

/-- `n in df.columns`. -/
def hasCol (f : Frame) (n : String) : Bool := f.cols.any (fun c => c.name = n)

/-- The cells of column `n` ( `[]` when the column is absent). -/
def colCells (f : Frame) (n : String) : List Cell :=
  ((getCol f n).map Column.cells).getD []

/-- Numeric value of a cell for summation (`Series.sum` skips `NaN`). -/
def cellVal : Cell → Int
  | .num n => n
  | _ => 0

/-- `df[n].sum()`. -/
def colSum (f : Frame) (n : String) : Int :=
  ((colCells f n).map cellVal).sum

/-- Column assignment `df[n] = cs`: overwrite in place if the name
exists, else append a new column at the right. -/
def setCol (f : Frame) (n : String) (cs : List Cell) : Frame :=
  if f.cols.any (fun c => c.name = n) then
    { f with cols := f.cols.map (fun c => if c.name = n then ⟨n, cs⟩ else c) }
  else { f with cols := f.cols ++ [⟨n, cs⟩] }

/-- `df.drop(columns=[n])`. -/
def dropCol (f : Frame) (n : String) : Frame :=
  { f with cols := f.cols.filter (fun c => c.name ≠ n) }

/-! ## SchemaNormalizer: lines 22-48 of `app.py` -/

/-- Line 23: `df.columns = [str(c).strip() for c in df.columns]`. -/
def stripColNames (f : Frame) : Frame :=
  { f with cols := f.cols.map (fun c => { c with name := pyStrip c.name }) }

/-- Is the second character list an initial segment of the first? -/
def strStartsWithAux : List Char → List Char → Bool
  | _, [] => true
  | [], _ :: _ => false
  | c :: ct, p :: pt => p == c && strStartsWithAux ct pt

/-- Does the string `s` start with `t` (the regex `'^t'` under
`Series.str.contains`)? -/
def strStartsWith (s t : String) : Bool := strStartsWithAux s.toList t.toList

/-- Line 26: drop columns whose name matches `'^Unnamed'`. -/
def dropUnnamed (f : Frame) : Frame :=
  { f with cols := f.cols.filter (fun c => !(strStartsWith c.name "Unnamed")) }

/-- Line 27: `df.dropna(axis=1, how='all')` — keep a column iff it has at
least one non-missing value (a zero-row frame keeps no column). -/
def dropAllNa (f : Frame) : Frame :=
  { f with cols := f.cols.filter (fun c => c.cells.any (fun x => x ≠ Cell.na)) }

/-- Line 32: does a value match the regex `\D+\d{4}$` under `re.search` —
the last four characters are digits and the character before them exists
and is a non-digit? -/
def matchesMerged (s : String) : Bool :=
  match s.toList.reverse with
  | d1 :: d2 :: d3 :: d4 :: c :: _ =>
    d1.isDigit && d2.isDigit && d3.isDigit && d4.isDigit && !c.isDigit
  | _ => false

/-- Lines 31-32: how many of the first 30 values of the column, read as
text, match `\D+\d{4}$`. -/
def sampleCount (c : Column) : Nat :=
  ((c.cells.take 30).map cellToStr).countP matchesMerged

/-- Line 32: the split trigger `sampleCount ≥ 3` for one column. -/
def qualifies (c : Column) : Bool := decide (3 ≤ sampleCount c)

/-- Line 34: `str.extract(r'(.+?)(\d{4})$')` on one value under
`re.search`: when the string ends in four digits preceded by at least one
character, return (everything before the last four digits, the last four
digits); otherwise no match. -/
def extractMerged (s : String) : Option (String × String) :=
  match s.toList.reverse with
  | d1 :: d2 :: d3 :: d4 :: c :: rest =>
    if d1.isDigit && d2.isDigit && d3.isDigit && d4.isDigit then
      some (⟨(c :: rest).reverse⟩, ⟨[d4, d3, d2, d1]⟩)
    else none
  | _ => none

/-- Line 35: `extracted[0].str.strip()` for one cell of the split column. -/
def stateCell (c : Cell) : Cell :=
  match extractMerged (cellToStr c) with
  | some p => .str (pyStrip p.1)
  | none => .na

/-- Line 36: `pd.to_numeric(extracted[1], errors='coerce')` for one cell
of the split column. -/
def yearCell (c : Cell) : Cell :=
  match extractMerged (cellToStr c) with
  | some p => toNumericCell (.str p.2)
  | none => .na

/-- Lines 34-37: assign the extracted `State` and `Year` columns and drop
the original merged column. -/
def applySplit (f : Frame) (c : Column) : Frame :=
  dropCol (setCol (setCol f "State" (c.cells.map stateCell)) "Year"
    (c.cells.map yearCell)) c.name

/-- Lines 30-38: scan columns left to right; split the first one whose
sampled values qualify, then stop (`break`). -/
def splitMergedFrame (f : Frame) : Frame :=
  match f.cols.find? qualifies with
  | some c => applySplit f c
  | none => f

/-- Lines 41-42: coerce an existing `Year` column to numeric. -/
def coerceYearCol (f : Frame) : Frame :=
  if hasCol f "Year" then setCol f "Year" ((colCells f "Year").map toNumericCell)
  else f

/-- Line 44 cell op: `astype(str).str.strip()`. -/
def stripStateCell (c : Cell) : Cell := .str (pyStrip (cellToStr c))

/-- Lines 43-44: re-strip an existing `State` column as text. -/
def stripStateCol (f : Frame) : Frame :=
  if hasCol f "State" then setCol f "State" ((colCells f "State").map stripStateCell)
  else f

/-- Line 48: `df.insert(0, 'ID', range(1, len(df) + 1))`. -/
def insertID (f : Frame) : Frame :=
  { f with cols := ⟨"ID", (List.range f.nrows).map (fun i => Cell.num ((i : Int) + 1))⟩ :: f.cols }

/-! ## NumericCoercer: lines 50-68 of `app.py` -/

/-- Lines 51-52 (and 63): the candidate crime columns — every column name
not in `{'ID','State','Year'}`. -/
def candidateCols (f : Frame) : List String :=
  (f.cols.map Column.name).filter (fun n => !(nonCrime n))

/-- Lines 55-56 (and 64-65): apply `coerceCell` to every column whose
name is in the given list. -/
def coerceCols (f : Frame) (l : List String) : Frame :=
  { f with cols := f.cols.map (fun c =>
      if c.name ∈ l then { c with cells := c.cells.map coerceCell } else c) }

/-- Lines 50-68: coerce the candidate columns, drop zero-sum candidates,
fall back to the full (re-coerced) candidate set when none survives, and
record the result in `attrs['crime_cols']`. -/
def numericCoerce (f : Frame) : Frame :=
  let crime1 := candidateCols f
  let f8 := coerceCols f crime1
  let crime2 := crime1.filter (fun n => decide (colSum f8 n ≠ 0))
  if crime2.isEmpty then
    let crime3 := candidateCols f8
    { coerceCols f8 crime3 with crimeCols := some crime3 }
  else
    { f8 with crimeCols := some crime2 }

/-! ## The full pipeline `load_and_clean` (lines 11-70) -/

/-- `load_and_clean`: `none` models a missing `crimes.csv` (line 14
returns a bare `pd.DataFrame()`); otherwise the raw parsed table is
normalized and coerced.  `df.insert(0, 'ID', ...)` raises when an `ID`
column already exists, modelled by the `Except` error. -/
def loadAndClean (raw : Option Frame) : Except String Frame :=
  match raw with
  | none => .ok { nrows := 0, cols := [], crimeCols := none }
  | some df0 =>
    let df3 := dropAllNa (dropUnnamed (stripColNames df0))
    let df4 := splitMergedFrame df3
    let df5 := coerceYearCol df4
    let df6 := stripStateCol df5
    if hasCol df6 "ID" then .error "cannot insert ID: column already exists"
    else .ok (numericCoerce (insertID df6))

/-! ## Aggregator: `top5_from_df` (lines 75-99) -/

/-- Descending-by-value comparison used by `sort_values(ascending=False)`:
`valGE p q` says the value of `p` is at least the value of `q`. -/
def valGE (p q : String × Int) : Prop := q.2 ≤ p.2

instance : DecidableRel valGE := fun p q => Int.decLe q.2 p.2

instance : IsTotal (String × Int) valGE := ⟨fun p q => Int.le_total q.2 p.2⟩

instance : IsTrans (String × Int) valGE := ⟨fun _ _ _ h1 h2 => le_trans h2 h1⟩

/-- `Series.sort_values(ascending=False)` on labelled values, rendered
as an insertion sort.  The source's default `kind='quicksort'` guarantees
nothing about the relative order of ties, so only order-insensitive
consequences of this sort (length, sortedness by value, membership) are
ever concluded — never an exact sequence among equal values. -/
def sortByValDesc (l : List (String × Int)) : List (String × Int) :=
  List.insertionSort valGE l

/-- The synthetic placeholder label `NoData{i+1}`. -/
def noDataLabel (i : Nat) : String := "NoData" ++ toString (i + 1)

/-- `Series.__setitem__` on a labelled value list: when the label already
exists its value is overwritten in place (every occurrence); otherwise
the new (label, value) pair is appended at the end. -/
def setItem (l : List (String × Int)) (k : String) (v : Int) : List (String × Int) :=
  if l.any (fun p => p.1 = k) then
    l.map (fun p => if p.1 = k then (k, v) else p)
  else l ++ [(k, v)]

/-- Lines 93-96: `missing = 5 - len(top5)`, then
`top5[f"NoData{i+1}"] = 0` for each `i < missing`.  Because the setitem
overwrites an entry already labelled `NoData{i+1}`, a metric column whose
name collides with the placeholder namespace can leave the result with
fewer than 5 entries. -/
def padTo5 (l : List (String × Int)) : List (String × Int) :=
  if l.length < 5 then
    (List.range (5 - l.length)).foldl (fun acc i => setItem acc (noDataLabel i) 0) l
  else l

/-- Line 77: `df.attrs.get('crime_cols', [c for c in df.columns if c not
in {'ID','State','Year'}])`. -/
def effCrimeCols (f : Frame) : List String :=
  f.crimeCols.getD ((f.cols.map Column.name).filter (fun n => !(nonCrime n)))

/-- Lines 85-90: take the top 5 of the non-zero ranked list when it has
at least 5 entries, else the top 5 of the full sorted list. -/
def pickTop5 (allSums sums : List (String × Int)) : List (String × Int) :=
  if sums.length < 5 then allSums.take 5 else sums.take 5

/-- `top5_from_df` (lines 75-99). -/
def top5 (f : Frame) : List (String × Int) :=
  let cc := effCrimeCols f
  if cc.isEmpty then
    [(noDataLabel 0, 0), (noDataLabel 1, 0), (noDataLabel 2, 0),
     (noDataLabel 3, 0), (noDataLabel 4, 0)]
  else
    let allSums := sortByValDesc (cc.map (fun n => (n, colSum f n)))
    let sums := allSums.filter (fun p => decide (0 < p.2))
    (sortByValDesc (padTo5 (pickTop5 allSums sums))).take 5

/-! ## Request handlers (lines 122-148) -/

/-- The value of a successful Python `float()` call, as far as the year
filter can observe it: a finite rational, one of the infinities, or
`nan`. -/
inductive PyVal where
  | fin : Rat → PyVal
  | pinf : PyVal
  | ninf : PyVal
  | nan : PyVal
deriving DecidableEq, Repr

/-- Mantissa of a float literal: digits with an optional decimal point
(`"123"`, `"123."`, `"12.5"`, `".5"`), returned as the combined digit
value paired with the number of fractional digits. -/
def parseMantissa (l : List Char) : Option (Nat × Nat) :=
  let ip := l.takeWhile Char.isDigit
  let rest := l.dropWhile Char.isDigit
  match rest with
  | [] => if ip.isEmpty then none else some (digitsToNat ip, 0)
  | '.' :: fr =>
    if fr.all Char.isDigit ∧ ¬(ip.isEmpty ∧ fr.isEmpty) then
      some (digitsToNat (ip ++ fr), fr.length)
    else none
  | _ => none

/-- Exponent part of a float literal: empty, or `e`/`E` followed by an
optionally signed non-empty digit string. -/
def parseExponent (l : List Char) : Option Int :=
  match l with
  | [] => some 0
  | _ :: et =>
    match et with
    | '+' :: dt =>
      if ¬dt.isEmpty ∧ dt.all Char.isDigit then some ((digitsToNat dt : Nat) : Int)
      else none
    | '-' :: dt =>
      if ¬dt.isEmpty ∧ dt.all Char.isDigit then some (-((digitsToNat dt : Nat) : Int))
      else none
    | dt =>
      if ¬dt.isEmpty ∧ dt.all Char.isDigit then some ((digitsToNat dt : Nat) : Int)
      else none

/-- The finite value `m / 10^fd * 10^e` as an exact rational. -/
def decimalVal (m : Nat) (fd : Nat) (e : Int) : Rat :=
  if 0 ≤ e - (fd : Int) then ((m * 10 ^ (e - (fd : Int)).toNat : Nat) : Rat)
  else (m : Rat) / ((10 ^ ((fd : Int) - e).toNat : Nat) : Rat)

/-- Model of Python `float(s)` (line 129): surrounding whitespace is
stripped, then an optional sign followed by `inf`/`infinity`/`nan`
(case-insensitive) or a decimal mantissa with an optional exponent.
Digit-group underscores are not modelled.  `none` models the
`ValueError`. -/
def pyFloat (s : String) : Option PyVal :=
  match stripChars s.toList with
  | [] => none
  | l =>
    let sgn : Bool × List Char := match l with
      | '+' :: t => (false, t)
      | '-' :: t => (true, t)
      | t => (false, t)
    let neg := sgn.1
    let l1 := sgn.2
    let low := l1.map Char.toLower
    if low = ['i', 'n', 'f'] ∨ low = ['i', 'n', 'f', 'i', 'n', 'i', 't', 'y'] then
      some (if neg then PyVal.ninf else PyVal.pinf)
    else if low = ['n', 'a', 'n'] then some PyVal.nan
    else
      let mant := l1.takeWhile (fun c => !((c == 'e') || (c == 'E')))
      let erest := l1.dropWhile (fun c => !((c == 'e') || (c == 'E')))
      match parseMantissa mant, parseExponent erest with
      | some mf, some e =>
        let q := decimalVal mf.1 mf.2 e
        some (PyVal.fin (if neg then -q else q))
      | _, _ => none

/-- One comparison of `df['Year'] == ynum`: true iff the filter value is
the same finite number as the (numeric) cell; `NaN` cells, non-numeric
cells, the infinities and float `nan` always compare unequal. -/
def pyValEqCell (v : PyVal) (c : Cell) : Bool :=
  match v, c with
  | .fin q, .num n => q = (n : Rat)
  | _, _ => false

/-- Boolean row mask `df['Year'] == ynum`. -/
def yearMask (f : Frame) (v : PyVal) : List Bool :=
  (colCells f "Year").map (fun c => pyValEqCell v c)

/-- Boolean row mask `df['State'] == state`. -/
def stateMask (f : Frame) (s : String) : List Bool :=
  (colCells f "State").map (fun c => decide (c = Cell.str s))

/-- Keep the cells whose mask entry is `true`. -/
def maskCells (m : List Bool) (l : List Cell) : List Cell :=
  (List.zip m l).filterMap (fun p => if p.1 then some p.2 else none)

/-- `df[mask]`: boolean row selection over every column;
`attrs` propagate. -/
def filterFrame (f : Frame) (m : List Bool) : Frame :=
  { nrows := m.count true,
    cols := f.cols.map (fun c => { c with cells := maskCells m c.cells }),
    crimeCols := f.crimeCols }

/-- Lines 129-130, the body of the `try` block: `ynum = float(year)`
(may raise `ValueError`) then `df = df[df['Year'] == ynum]` (may raise
`KeyError` when there is no `Year` column). -/
def applyYearFilter (f : Frame) (y : String) : Except String Frame :=
  match pyFloat y with
  | none => .error "ValueError: could not convert string to float"
  | some n =>
    if hasCol f "Year" then .ok (filterFrame f (yearMask f n))
    else .error "KeyError: Year"

/-- `update_year` (lines 122-136): the filter step is wrapped in
`try/except`, so any of its failures falls back to the unfiltered frame;
the handler always returns the aggregated top-5. -/
def updateYear (yearParam : Option String) (f : Frame) : List (String × Int) :=
  match yearParam with
  | none => top5 f
  | some y =>
    if y = "" || y = "All" then top5 f
    else
      match applyYearFilter f y with
      | .ok g => top5 g
      | .error _ => top5 f

/-- `update_state` (lines 138-148): the row selection
`df[df['State'] == state]` is not guarded, so a missing `State` column
raises `KeyError` out of the handler. -/
def updateState (stateParam : Option String) (f : Frame) :
    Except String (List (String × Int)) :=
  match stateParam with
  | none => .ok (top5 f)
  | some s =>
    if s = "" || s = "All" then .ok (top5 f)
    else if hasCol f "State" then .ok (top5 (filterFrame f (stateMask f s)))
    else .error "KeyError: State"

/-- The length of the list inside a successful handler result. -/
def okLength (e : Except String (List (String × Int))) : Option Nat :=
  e.toOption.map List.length

/-- Modelled from the spec: the "leading non-digit prefix" of a value,
trimmed — the reading of the Region extraction that §4.2 step 3 of the
spec describes, for comparison with the source's `extractMerged`. -/
def specLeadingNonDigit (s : String) : String :=
  pyStrip ⟨s.toList.takeWhile (fun c => !c.isDigit)⟩

/-! ## Lemmas about digits, printing and parsing -/

theorem digitChar_mem (d : Nat) :
    digitChar d ∈ ['0', '1', '2', '3', '4', '5', '6', '7', '8', '9'] := by
  rcases d with _|_|_|_|_|_|_|_|_|d
  · decide
  · decide
  · decide
  · decide
  · decide
  · decide
  · decide
  · decide
  · decide
  · show ('9' : Char) ∈ _
    decide

theorem digitChar_props (d : Nat) :
    (digitChar d).isDigit = true ∧ digitChar d ≠ ',' ∧
    (digitChar d).isWhitespace = false ∧ digitChar d ≠ '-' := by
  have h := digitChar_mem d
  generalize digitChar d = c at h ⊢
  fin_cases h <;> exact ⟨by decide, by decide, by decide, by decide⟩

theorem digitChar_toNat (d : Nat) (h : d < 10) : (digitChar d).toNat = 48 + d := by
  interval_cases d <;> decide

theorem natToDigits_ne_nil (n : Nat) : natToDigits n ≠ [] := by
  rw [natToDigits]
  split <;> simp

theorem natToDigits_mem (n : Nat) :
    ∀ c ∈ natToDigits n, (c.isDigit = true ∧ c ≠ ',' ∧
      c.isWhitespace = false ∧ c ≠ '-') := by
  induction n using Nat.strong_induction_on with
  | _ n ih =>
    rw [natToDigits]
    split
    · intro c hc
      simp only [List.mem_singleton] at hc
      subst hc
      exact digitChar_props n
    · intro c hc
      rw [List.mem_append] at hc
      rcases hc with hc | hc
      · exact ih (n / 10) (Nat.div_lt_self (by omega) (by omega)) c hc
      · simp only [List.mem_singleton] at hc
        subst hc
        exact digitChar_props (n % 10)

theorem digitsToNat_append_one (l : List Char) (c : Char) :
    digitsToNat (l ++ [c]) = digitsToNat l * 10 + (c.toNat - 48) := by
  simp [digitsToNat, List.foldl_append]

theorem digitsToNat_natToDigits (n : Nat) : digitsToNat (natToDigits n) = n := by
  induction n using Nat.strong_induction_on with
  | _ n ih =>
    rw [natToDigits]
    split
    · rename_i h
      simp only [digitsToNat, List.foldl_cons, List.foldl_nil]
      rw [digitChar_toNat n h]
      omega
    · rename_i h
      rw [digitsToNat_append_one, ih (n / 10) (Nat.div_lt_self (by omega) (by omega)),
        digitChar_toNat (n % 10) (by omega)]
      omega

theorem toList_mk (l : List Char) : String.toList ⟨l⟩ = l := rfl

theorem parseNumeric_digits (l : List Char) (hne : l ≠ [])
    (hd : ∀ c ∈ l, c.isDigit = true) :
    parseNumeric ⟨l⟩ = some ((digitsToNat l : Nat) : Int) := by
  match l, hne with
  | a :: rest, _ =>
    have ha : a.isDigit = true := hd a (List.mem_cons_self a rest)
    have ha' : ¬(a = '-') := by
      intro h
      subst h
      simp at ha
    have h2 : (a :: rest).all Char.isDigit = true := List.all_eq_true.mpr hd
    simp [parseNumeric, toList_mk, ha', h2]

theorem parseNumeric_neg_digits (l : List Char) (hne : l ≠ [])
    (hd : ∀ c ∈ l, c.isDigit = true) :
    parseNumeric ⟨'-' :: l⟩ = some (-(digitsToNat l : Int)) := by
  match l, hne with
  | a :: rest, _ =>
    have h1 : (!(a :: rest).isEmpty && (a :: rest).all Char.isDigit) = true := by
      simp only [List.isEmpty_cons, Bool.not_false, Bool.true_and, List.all_eq_true]
      exact hd
    simp only [parseNumeric, toList_mk, h1, if_pos, if_true]

theorem parseNumeric_intToStr (n : Int) : parseNumeric (intToStr n) = some n := by
  unfold intToStr
  split
  · rw [parseNumeric_neg_digits _ (natToDigits_ne_nil _)
      (fun c hc => (natToDigits_mem _ c hc).1), digitsToNat_natToDigits]
    congr 1
    omega
  · rename_i h
    rw [parseNumeric_digits _ (natToDigits_ne_nil _)
      (fun c hc => (natToDigits_mem _ c hc).1), digitsToNat_natToDigits]
    congr 1
    omega

theorem intToStr_ne_empty (n : Int) : intToStr n ≠ "" := by
  unfold intToStr
  split
  · intro h
    have := congrArg String.toList h
    simp [toList_mk] at this
  · intro h
    have := congrArg String.toList h
    rw [toList_mk] at this
    exact natToDigits_ne_nil _ (by simpa using this)

theorem dropWhile_eq_self_of_false {p : Char → Bool} {l : List Char}
    (h : ∀ c ∈ l, p c = false) : l.dropWhile p = l := by
  cases l with
  | nil => rfl
  | cons a t =>
    rw [List.dropWhile_cons, h a (List.mem_cons_self a t)]
    simp

theorem stripChars_eq_self {l : List Char}
    (h : ∀ c ∈ l, c.isWhitespace = false) : stripChars l = l := by
  unfold stripChars
  rw [dropWhile_eq_self_of_false h, dropWhile_eq_self_of_false
    (fun c hc => h c (by simpa using hc)), List.reverse_reverse]

theorem pyStrip_intToStr (n : Int) : pyStrip (intToStr n) = intToStr n := by
  unfold pyStrip
  have h : ∀ c ∈ (intToStr n).toList, c.isWhitespace = false := by
    unfold intToStr
    split
    · intro c hc
      rw [toList_mk] at hc
      rcases hc with _ | hc
      · decide
      · exact (natToDigits_mem _ c (by assumption)).2.2.1
    · intro c hc
      rw [toList_mk] at hc
      exact (natToDigits_mem _ c hc).2.2.1
  rw [stripChars_eq_self h]
  cases intToStr n
  rfl

theorem removeCommas_intToStr (n : Int) : removeCommas (intToStr n) = intToStr n := by
  unfold removeCommas
  have h : ∀ c ∈ (intToStr n).toList, c ≠ ',' := by
    unfold intToStr
    split
    · intro c hc
      rw [toList_mk] at hc
      rcases hc with _ | hc
      · decide
      · exact (natToDigits_mem _ c (by assumption)).2.1
    · intro c hc
      rw [toList_mk] at hc
      exact (natToDigits_mem _ c hc).2.1
  rw [List.filter_eq_self.mpr (fun c hc => by simpa using h c hc)]
  cases intToStr n
  rfl

theorem coerceCell_num (k : Int) : coerceCell (Cell.num k) = Cell.num k := by
  simp only [coerceCell, cellToStr]
  rw [removeCommas_intToStr, pyStrip_intToStr, if_neg (intToStr_ne_empty k),
    parseNumeric_intToStr]
  rfl

theorem coerceCell_idem (c : Cell) : coerceCell (coerceCell c) = coerceCell c := by
  obtain ⟨k, hk⟩ : ∃ k, coerceCell c = Cell.num k := ⟨_, rfl⟩
  rw [hk, coerceCell_num]

theorem coerceCell_isNum (c : Cell) : isNum (coerceCell c) = true := rfl

/-! ## Lemmas about the descending sort -/

theorem sortByValDesc_sorted (l : List (String × Int)) :
    List.Sorted valGE (sortByValDesc l) :=
  List.sorted_insertionSort valGE l

theorem sortByValDesc_perm (l : List (String × Int)) :
    List.Perm (sortByValDesc l) l :=
  List.perm_insertionSort valGE l

theorem sortByValDesc_length (l : List (String × Int)) :
    (sortByValDesc l).length = l.length :=
  (sortByValDesc_perm l).length_eq

/-! ## Lemmas about frame operations -/

theorem find?_name_map (g : Column → Column) (hg : ∀ c, (g c).name = c.name)
    (l : List Column) (n : String) :
    (l.map g).find? (fun c => c.name = n) =
      (l.find? (fun c => c.name = n)).map g := by
  induction l with
  | nil => rfl
  | cons a t ih =>
    simp only [List.map_cons, List.find?_cons, hg a]
    by_cases h : a.name = n
    · simp [h]
    · simp [h, ih]

theorem coerceColsFun_name (l : List String) (c : Column) :
    (if c.name ∈ l then { c with cells := c.cells.map coerceCell }
      else c).name = c.name := by
  split <;> rfl

theorem getCol_coerceCols_not_mem (f : Frame) (l : List String) (n : String)
    (h : n ∉ l) : getCol (coerceCols f l) n = getCol f n := by
  unfold getCol coerceCols
  rw [find?_name_map _ (fun c => coerceColsFun_name l c)]
  cases hf : f.cols.find? (fun c => c.name = n) with
  | none => rfl
  | some c =>
    have hc : c.name = n := by
      have := List.find?_some hf
      simpa using this
    simp only [Option.map_some']
    rw [if_neg (by rw [hc]; exact h)]

theorem colCells_coerceCols_mem (f : Frame) (l : List String) (n : String)
    (h : n ∈ l) : colCells (coerceCols f l) n = (colCells f n).map coerceCell := by
  unfold colCells getCol coerceCols
  rw [find?_name_map _ (fun c => coerceColsFun_name l c)]
  cases hf : f.cols.find? (fun c => c.name = n) with
  | none => rfl
  | some c =>
    have hc : c.name = n := by
      have := List.find?_some hf
      simpa using this
    simp only [Option.map_some']
    rw [if_pos (by rw [hc]; exact h)]
    rfl

theorem coerceCols_names (f : Frame) (l : List String) :
    (coerceCols f l).cols.map Column.name = f.cols.map Column.name := by
  unfold coerceCols
  simp only [List.map_map]
  exact List.map_congr_left (fun c _ => coerceColsFun_name l c)

theorem coerceCols_nrows (f : Frame) (l : List String) :
    (coerceCols f l).nrows = f.nrows := rfl

theorem coerceCols_crimeCols (f : Frame) (l : List String) :
    (coerceCols f l).crimeCols = f.crimeCols := rfl

theorem candidateCols_coerceCols (f : Frame) (l : List String) :
    candidateCols (coerceCols f l) = candidateCols f := by
  unfold candidateCols
  rw [coerceCols_names]

theorem colSum_congr_cols (f g : Frame) (h : f.cols = g.cols) (n : String) :
    colSum f n = colSum g n := by
  unfold colSum colCells getCol
  rw [h]

theorem coerceCols_coerceCols (f : Frame) (l : List String) :
    coerceCols (coerceCols f l) l = coerceCols f l := by
  unfold coerceCols
  simp only [List.map_map]
  congr 1
  apply List.map_congr_left
  intro c _
  by_cases h : c.name ∈ l
  · simp only [Function.comp_apply, if_pos h]
    simp only [Column.mk.injEq, true_and]
    rw [List.map_map]
    exact List.map_congr_left (fun x _ => by simpa using coerceCell_idem x)
  · simp only [Function.comp_apply, if_neg h]

theorem frameExt (a b : Frame) (h1 : a.nrows = b.nrows) (h2 : a.cols = b.cols)
    (h3 : a.crimeCols = b.crimeCols) : a = b := by
  cases a
  cases b
  cases h1
  cases h2
  cases h3
  rfl

theorem candidateCols_congr_cols (f g : Frame) (h : f.cols = g.cols) :
    candidateCols f = candidateCols g := by
  unfold candidateCols
  rw [h]

theorem coerceCols_cols_congr (f g : Frame) (l : List String) (h : f.cols = g.cols) :
    (coerceCols f l).cols = (coerceCols g l).cols := by
  unfold coerceCols
  rw [h]

theorem numericCoerce_cols (f : Frame) :
    (numericCoerce f).cols = (coerceCols f (candidateCols f)).cols := by
  simp only [numericCoerce]
  split
  · show (coerceCols (coerceCols f (candidateCols f))
      (candidateCols (coerceCols f (candidateCols f)))).cols = _
    rw [candidateCols_coerceCols, coerceCols_coerceCols]
  · rfl

theorem numericCoerce_nrows (f : Frame) : (numericCoerce f).nrows = f.nrows := by
  simp only [numericCoerce]
  split <;> rfl

theorem numericCoerce_crimeCols_eq (f : Frame) :
    (numericCoerce f).crimeCols =
      some (if ((candidateCols f).filter
          (fun n => decide (colSum (coerceCols f (candidateCols f)) n ≠ 0))).isEmpty
        then candidateCols f
        else (candidateCols f).filter
          (fun n => decide (colSum (coerceCols f (candidateCols f)) n ≠ 0))) := by
  simp only [numericCoerce]
  split
  · simp only [candidateCols_coerceCols]
  · rfl

theorem numericCoerce_idem (f : Frame) :
    numericCoerce (numericCoerce f) = numericCoerce f := by
  have hcols : (numericCoerce f).cols = (coerceCols f (candidateCols f)).cols :=
    numericCoerce_cols f
  have hcand : candidateCols (numericCoerce f) = candidateCols f := by
    rw [candidateCols_congr_cols _ _ hcols, candidateCols_coerceCols]
  have hco : (coerceCols (numericCoerce f) (candidateCols f)).cols
      = (numericCoerce f).cols := by
    rw [coerceCols_cols_congr _ (coerceCols f (candidateCols f)) _ hcols,
      coerceCols_coerceCols, ← hcols]
  have hsum : ∀ n, colSum (coerceCols (numericCoerce f) (candidateCols f)) n
      = colSum (coerceCols f (candidateCols f)) n := by
    intro n
    exact colSum_congr_cols _ _ (hco.trans hcols) n
  apply frameExt
  · rw [numericCoerce_nrows, numericCoerce_nrows]
  · rw [numericCoerce_cols (numericCoerce f), hcand, hco, hcols]
  · rw [numericCoerce_crimeCols_eq (numericCoerce f), numericCoerce_crimeCols_eq f,
      hcand]
    have hp : (fun n => decide (colSum (coerceCols (numericCoerce f)
        (candidateCols f)) n ≠ 0))
        = (fun n => decide (colSum (coerceCols f (candidateCols f)) n ≠ 0)) := by
      funext n
      rw [hsum n]
    rw [hp]

/-! ## Lemmas about the aggregator -/

theorem noDataLabel_inj5 : ∀ i, i < 5 → ∀ j, j < 5 → i ≠ j →
    noDataLabel i ≠ noDataLabel j := by decide

theorem setItem_not_mem (l : List (String × Int)) (k : String) (v : Int)
    (h : k ∉ l.map Prod.fst) : setItem l k v = l ++ [(k, v)] := by
  unfold setItem
  rw [if_neg]
  intro hany
  rw [List.any_eq_true] at hany
  obtain ⟨p, hp, hpk⟩ := hany
  rw [decide_eq_true_eq] at hpk
  exact h (hpk ▸ List.mem_map_of_mem Prod.fst hp)

theorem mem_setItem (l : List (String × Int)) (k : String) (v : Int)
    (p : String × Int) (hp : p ∈ setItem l k v) : p ∈ l ∨ p = (k, v) := by
  unfold setItem at hp
  split at hp
  · obtain ⟨q, hq, hpq⟩ := List.mem_map.mp hp
    by_cases h2 : q.1 = k
    · right
      rw [← hpq, if_pos h2]
    · left
      rw [← hpq, if_neg h2]
      exact hq
  · rcases List.mem_append.mp hp with h | h
    · exact Or.inl h
    · simp only [List.mem_singleton] at h
      exact Or.inr h

theorem foldl_setItem_fresh : ∀ (m : Nat), m ≤ 5 → ∀ (l : List (String × Int)),
    (∀ i, i < m → noDataLabel i ∉ l.map Prod.fst) →
    (List.range m).foldl (fun acc i => setItem acc (noDataLabel i) 0) l
      = l ++ (List.range m).map (fun i => (noDataLabel i, (0 : Int))) := by
  intro m
  induction m with
  | zero =>
    intro _ l _
    simp
  | succ m2 ih =>
    intro hm l hl
    rw [List.range_succ, List.foldl_append, List.map_append,
      ih (by omega) l (fun i hi => hl i (by omega))]
    simp only [List.foldl_cons, List.foldl_nil, List.map_cons, List.map_nil]
    have hfresh : noDataLabel m2 ∉ (l ++ (List.range m2).map
        (fun i => (noDataLabel i, (0 : Int)))).map Prod.fst := by
      rw [List.map_append]
      intro hmem
      rcases List.mem_append.mp hmem with h | h
      · exact hl m2 (by omega) h
      · rw [List.map_map] at h
        obtain ⟨i, hi, hlab⟩ := List.mem_map.mp h
        rw [List.mem_range] at hi
        exact noDataLabel_inj5 i (by omega) m2 (by omega) (by omega)
          (by simpa using hlab)
    rw [setItem_not_mem _ _ _ hfresh, List.append_assoc]

theorem padTo5_no_collision (l : List (String × Int))
    (h : ∀ i, i < 5 → noDataLabel i ∉ l.map Prod.fst) :
    padTo5 l = l ++ (List.range (5 - l.length)).map
      (fun i => (noDataLabel i, (0 : Int))) := by
  unfold padTo5
  split
  · exact foldl_setItem_fresh (5 - l.length) (by omega) l (fun i hi => h i (by omega))
  · rename_i h2
    rw [show 5 - l.length = 0 by omega]
    simp

theorem padTo5_full (l : List (String × Int)) (h : ¬ l.length < 5) :
    padTo5 l = l := by
  unfold padTo5
  rw [if_neg h]

theorem mem_foldl_setItem : ∀ (m : Nat) (l : List (String × Int)) (p : String × Int),
    p ∈ (List.range m).foldl (fun acc i => setItem acc (noDataLabel i) 0) l →
    p ∈ l ∨ ∃ i, i < m ∧ p = (noDataLabel i, (0 : Int)) := by
  intro m
  induction m with
  | zero =>
    intro l p hp
    simp only [List.range_zero, List.foldl_nil] at hp
    exact Or.inl hp
  | succ m2 ih =>
    intro l p hp
    rw [List.range_succ, List.foldl_append] at hp
    simp only [List.foldl_cons, List.foldl_nil] at hp
    rcases mem_setItem _ _ _ p hp with h | h
    · rcases ih l p h with h | ⟨i, hi, hpi⟩
      · exact Or.inl h
      · exact Or.inr ⟨i, by omega, hpi⟩
    · exact Or.inr ⟨m2, by omega, h⟩

theorem mem_padTo5 (l : List (String × Int)) (p : String × Int)
    (hp : p ∈ padTo5 l) : p ∈ l ∨ ∃ i, i < 5 ∧ p = (noDataLabel i, (0 : Int)) := by
  unfold padTo5 at hp
  split at hp
  · rcases mem_foldl_setItem _ l p hp with h | ⟨i, hi, hpi⟩
    · exact Or.inl h
    · exact Or.inr ⟨i, by omega, hpi⟩
  · exact Or.inl hp

theorem pickTop5_length_le (a s : List (String × Int)) :
    (pickTop5 a s).length ≤ 5 := by
  unfold pickTop5
  split <;> (rw [List.length_take]; omega)

theorem mem_pickTop5 (a s : List (String × Int)) (p : String × Int)
    (hp : p ∈ pickTop5 a s) : p ∈ a ∨ p ∈ s := by
  unfold pickTop5 at hp
  split at hp
  · exact Or.inl ((List.take_sublist 5 a).subset hp)
  · exact Or.inr ((List.take_sublist 5 s).subset hp)

theorem pickTop5_nil (a : List (String × Int)) : pickTop5 a [] = a.take 5 := by
  unfold pickTop5
  simp

/-- Every entry picked before padding is a (label, sum) pair of a real
metric column. -/
theorem pickTop5_structure (f : Frame) (cc : List String) (p : String × Int)
    (hp : p ∈ pickTop5 (sortByValDesc (cc.map (fun n => (n, colSum f n))))
      ((sortByValDesc (cc.map (fun n => (n, colSum f n)))).filter
        (fun q => decide (0 < q.2)))) :
    ∃ n, n ∈ cc ∧ p = (n, colSum f n) := by
  rcases mem_pickTop5 _ _ _ hp with h | h
  · have h2 := (sortByValDesc_perm _).subset h
    obtain ⟨n, hn, rfl⟩ := List.mem_map.mp h2
    exact ⟨n, hn, rfl⟩
  · have h1 := List.mem_of_mem_filter h
    have h2 := (sortByValDesc_perm _).subset h1
    obtain ⟨n, hn, rfl⟩ := List.mem_map.mp h2
    exact ⟨n, hn, rfl⟩

theorem top5_length (f : Frame)
    (hnc : ∀ i, i < 5 → noDataLabel i ∉ effCrimeCols f) :
    (top5 f).length = 5 := by
  simp only [top5]
  split
  · rfl
  · have hfresh : ∀ i, i < 5 → noDataLabel i ∉
        (pickTop5 (sortByValDesc ((effCrimeCols f).map (fun n => (n, colSum f n))))
          ((sortByValDesc ((effCrimeCols f).map (fun n => (n, colSum f n)))).filter
            (fun q => decide (0 < q.2)))).map Prod.fst := by
      intro i hi hmem
      obtain ⟨p, hp, hlab⟩ := List.mem_map.mp hmem
      obtain ⟨n, hn, rfl⟩ := pickTop5_structure f _ p hp
      apply hnc i hi
      rw [← hlab]
      exact hn
    rw [padTo5_no_collision _ hfresh, List.length_take, sortByValDesc_length,
      List.length_append, List.length_map, List.length_range]
    have hle := pickTop5_length_le
      (sortByValDesc ((effCrimeCols f).map (fun n => (n, colSum f n))))
      ((sortByValDesc ((effCrimeCols f).map (fun n => (n, colSum f n)))).filter
        (fun q => decide (0 < q.2)))
    omega

theorem top5_sorted (f : Frame) : List.Sorted valGE (top5 f) := by
  simp only [top5]
  split
  · decide
  · exact List.Pairwise.sublist (List.take_sublist 5 _) (sortByValDesc_sorted _)

theorem top5_mem (f : Frame) (p : String × Int) (hp : p ∈ top5 f) :
    (∃ n, n ∈ effCrimeCols f ∧ p = (n, colSum f n)) ∨
    (∃ i, i < 5 ∧ p = (noDataLabel i, (0 : Int))) := by
  simp only [top5] at hp
  split at hp
  · simp only [List.mem_cons, List.not_mem_nil, or_false] at hp
    rcases hp with rfl | rfl | rfl | rfl | rfl
    · exact Or.inr ⟨0, by omega, rfl⟩
    · exact Or.inr ⟨1, by omega, rfl⟩
    · exact Or.inr ⟨2, by omega, rfl⟩
    · exact Or.inr ⟨3, by omega, rfl⟩
    · exact Or.inr ⟨4, by omega, rfl⟩
  · have hp1 := (sortByValDesc_perm _).subset ((List.take_sublist 5 _).subset hp)
    rcases mem_padTo5 _ p hp1 with h | h
    · exact Or.inl (pickTop5_structure f _ p h)
    · exact Or.inr h

theorem top5_labels_real_of_zero (f : Frame) (cc : List String)
    (hcc : f.crimeCols = some cc) (h5 : 5 ≤ cc.length)
    (hz : ∀ n ∈ cc, colSum f n = 0) :
    ∀ p ∈ top5 f, p.1 ∈ cc := by
  have hcc2 : effCrimeCols f = cc := by
    unfold effCrimeCols
    rw [hcc, Option.getD_some]
  have hne2 : cc.isEmpty = false := by
    cases cc
    · simp at h5
    · rfl
  intro p hp
  simp only [top5, hcc2] at hp
  split at hp
  · rename_i hemp
    rw [hne2] at hemp
    exact absurd hemp (by simp)
  · have hfilt : (sortByValDesc (cc.map (fun n => (n, colSum f n)))).filter
        (fun q => decide (0 < q.2)) = [] := by
      rw [List.filter_eq_nil_iff]
      intro q hq
      obtain ⟨n, hn, rfl⟩ := List.mem_map.mp ((sortByValDesc_perm _).subset hq)
      simp [hz n hn]
    rw [hfilt, pickTop5_nil] at hp
    have hlen : ((sortByValDesc (cc.map (fun n => (n, colSum f n)))).take 5).length
        = 5 := by
      rw [List.length_take, sortByValDesc_length, List.length_map]
      omega
    rw [padTo5_full _ (by rw [hlen]; omega)] at hp
    have h1 := (sortByValDesc_perm _).subset ((List.take_sublist 5 _).subset hp)
    have h2 := (List.take_sublist 5 _).subset h1
    obtain ⟨n, hn, rfl⟩ := List.mem_map.mp ((sortByValDesc_perm _).subset h2)
    exact hn

/-! ## First-match characterization of the merged-column scan -/

theorem find?_first (p : Column → Bool) :
    ∀ (l : List Column) (i : Nat) (hi : i < l.length),
      (∀ j, (hj : j < i) → p (l.get ⟨j, Nat.lt_trans hj hi⟩) = false) →
      p (l.get ⟨i, hi⟩) = true → l.find? p = some (l.get ⟨i, hi⟩) := by
  intro l
  induction l with
  | nil =>
    intro i hi
    exact absurd hi (by simp)
  | cons a t ih =>
    intro i hi hprev hp
    cases i with
    | zero =>
      simp only [List.get] at hp
      simp [List.find?_cons, hp]
    | succ i2 =>
      have h0 : p a = false := hprev 0 (Nat.succ_pos i2)
      simp only [List.find?_cons, h0]
      have hi2 : i2 < t.length := Nat.lt_of_succ_lt_succ hi
      have hprev2 : ∀ j, (hj : j < i2) → p (t.get ⟨j, Nat.lt_trans hj hi2⟩) = false :=
        fun j hj => hprev (j + 1) (Nat.succ_lt_succ hj)
      exact ih i2 hi2 hprev2 hp

/-! ## The split extraction -/

theorem extractMerged_eq (pre : List Char) (a b c d : Char) (hpre : pre ≠ [])
    (ha : a.isDigit = true) (hb : b.isDigit = true) (hc : c.isDigit = true)
    (hd : d.isDigit = true) :
    extractMerged ⟨pre ++ [a, b, c, d]⟩ = some (⟨pre⟩, ⟨[a, b, c, d]⟩) := by
  obtain ⟨e, pr, hpr⟩ : ∃ e pr, pre.reverse = e :: pr := by
    cases hrev : pre.reverse with
    | nil => exact absurd (by simpa using congrArg List.reverse hrev) hpre
    | cons e pr => exact ⟨e, pr, rfl⟩
  have hrev : (pre ++ [a, b, c, d]).reverse = d :: c :: b :: a :: e :: pr := by
    rw [List.reverse_append, hpr]
    rfl
  unfold extractMerged
  rw [toList_mk, hrev]
  show (if (d.isDigit && c.isDigit && b.isDigit && a.isDigit) = true then
      some ((⟨(e :: pr).reverse⟩ : String), (⟨[a, b, c, d]⟩ : String)) else none)
    = some (⟨pre⟩, ⟨[a, b, c, d]⟩)
  rw [if_pos (by simp [ha, hb, hc, hd])]
  have h5 : (e :: pr).reverse = pre := by
    rw [← hpr, List.reverse_reverse]
  rw [h5]

/-! ## Pipeline lemmas: metric cells are numeric, the ID column -/

theorem numericCoerce_metric_isNum (f : Frame) (n : String)
    (hn : n ∈ (numericCoerce f).crimeCols.getD []) :
    ∀ c ∈ colCells (numericCoerce f) n, isNum c = true := by
  intro c hc
  rw [numericCoerce_crimeCols_eq, Option.getD_some] at hn
  have hn1 : n ∈ candidateCols f := by
    split at hn
    · exact hn
    · exact List.mem_of_mem_filter hn
  have hcl : colCells (numericCoerce f) n
      = colCells (coerceCols f (candidateCols f)) n := by
    unfold colCells getCol
    rw [numericCoerce_cols]
  rw [hcl, colCells_coerceCols_mem f _ n hn1] at hc
  obtain ⟨x, _, rfl⟩ := List.mem_map.mp hc
  exact coerceCell_isNum x

theorem loadAndClean_metric_isNum (raw t : Frame)
    (h : loadAndClean (some raw) = Except.ok t) (n : String)
    (hn : n ∈ t.crimeCols.getD []) :
    ∀ c ∈ colCells t n, isNum c = true := by
  simp only [loadAndClean] at h
  split at h
  · simp at h
  · rw [Except.ok.injEq] at h
    rw [← h] at hn ⊢
    exact numericCoerce_metric_isNum _ n hn

theorem getCol_insertID (f : Frame) :
    getCol (insertID f) "ID" =
      some ⟨"ID", (List.range f.nrows).map (fun i => Cell.num ((i : Int) + 1))⟩ := by
  unfold getCol insertID
  simp [List.find?_cons]

theorem not_mem_candidate_of_nonCrime (f : Frame) (n : String)
    (h : nonCrime n = true) : n ∉ candidateCols f := by
  intro hmem
  unfold candidateCols at hmem
  have h2 := List.of_mem_filter hmem
  rw [h] at h2
  simp at h2

theorem getCol_numericCoerce_nonCrime (f : Frame) (n : String)
    (h : nonCrime n = true) : getCol (numericCoerce f) n = getCol f n := by
  have h1 : getCol (numericCoerce f) n = getCol (coerceCols f (candidateCols f)) n := by
    unfold getCol
    rw [numericCoerce_cols]
  rw [h1, getCol_coerceCols_not_mem _ _ _ (not_mem_candidate_of_nonCrime f n h)]

theorem insertID_nrows (f : Frame) : (insertID f).nrows = f.nrows := rfl

theorem loadAndClean_id_col (raw t : Frame)
    (h : loadAndClean (some raw) = Except.ok t) :
    getCol t "ID" =
      some ⟨"ID", (List.range t.nrows).map (fun i => Cell.num ((i : Int) + 1))⟩ := by
  simp only [loadAndClean] at h
  split at h
  · simp at h
  · rw [Except.ok.injEq] at h
    rw [← h, getCol_numericCoerce_nonCrime _ "ID" (by decide), getCol_insertID,
      numericCoerce_nrows, insertID_nrows]

/-! ## Row masks preserve the surviving cells -/

theorem maskCells_sublist (m : List Bool) (l : List Cell) :
    (maskCells m l).Sublist l := by
  induction m generalizing l with
  | nil => simp [maskCells]
  | cons b m2 ih =>
    cases l with
    | nil => simp [maskCells]
    | cons x t =>
      unfold maskCells
      rw [List.zip_cons_cons, List.filterMap_cons]
      cases b
      · exact List.Sublist.cons x (ih t)
      · exact List.Sublist.cons₂ x (ih t)

theorem colCells_filterFrame (f : Frame) (m : List Bool) (n : String) :
    colCells (filterFrame f m) n = maskCells m (colCells f n) := by
  unfold colCells getCol filterFrame
  rw [find?_name_map (fun c => { c with cells := maskCells m c.cells })
    (fun c => rfl)]
  cases hf : f.cols.find? (fun c => c.name = n) with
  | none => simp [maskCells]
  | some c => rfl

theorem filterFrame_id_sublist (f : Frame) (m : List Bool) :
    (colCells (filterFrame f m) "ID").Sublist (colCells f "ID") := by
  rw [colCells_filterFrame]
  exact maskCells_sublist m _

theorem applyYearFilter_none (f : Frame) (y : String) (hp : pyFloat y = none) :
    applyYearFilter f y
      = Except.error "ValueError: could not convert string to float" := by
  unfold applyYearFilter
  rw [hp]

theorem applyYearFilter_some (f : Frame) (y : String) (v : PyVal)
    (hp : pyFloat y = some v) :
    applyYearFilter f y = if hasCol f "Year"
      then Except.ok (filterFrame f (yearMask f v))
      else Except.error "KeyError: Year" := by
  unfold applyYearFilter
  rw [hp]

theorem applyYearFilter_ok (f : Frame) (y : String) (g : Frame)
    (h : applyYearFilter f y = Except.ok g) :
    ∃ v, g = filterFrame f (yearMask f v) := by
  cases hp : pyFloat y with
  | none =>
    rw [applyYearFilter_none f y hp] at h
    exact Except.noConfusion h
  | some v =>
    rw [applyYearFilter_some f y v hp] at h
    split at h
    · exact ⟨v, by simpa using h.symm⟩
    · exact Except.noConfusion h

/-- Row filtering changes neither the `crime_cols` attribute nor the
column names, so the aggregator sees the same metric-column list. -/
theorem effCrimeCols_filterFrame (f : Frame) (m : List Bool) :
    effCrimeCols (filterFrame f m) = effCrimeCols f := by
  unfold effCrimeCols filterFrame
  simp only [List.map_map]
  rfl

/-- The handler equation for a present region parameter. -/
theorem updateState_some (f : Frame) (s : String) :
    updateState (some s) f =
      if s = "" || s = "All" then Except.ok (top5 f)
      else if hasCol f "State" then
        Except.ok (top5 (filterFrame f (stateMask f s)))
      else Except.error "KeyError: State" := rfl

/-! ## Sample frames used to instantiate the general theorems -/

/-- Raw table: one column `A` holding the text `"-5"`. -/
def rawNeg : Frame := ⟨1, [⟨"A", [Cell.str "-5"]⟩], none⟩

/-- `loadAndClean` output for `rawNeg`. -/
def frameNeg : Frame := ⟨1, [⟨"ID", [Cell.num 1]⟩, ⟨"A", [Cell.num (-5)]⟩], some ["A"]⟩

/-- Raw table: one column `A` holding the text `"7"`. -/
def rawSeven : Frame := ⟨1, [⟨"A", [Cell.str "7"]⟩], none⟩

/-- `loadAndClean` output for `rawSeven`. -/
def frameSeven : Frame := ⟨1, [⟨"ID", [Cell.num 1]⟩, ⟨"A", [Cell.num 7]⟩], some ["A"]⟩

/-- The frame returned for a missing input file: no rows, no columns,
no `crime_cols` attribute. -/
def emptyFrame : Frame := ⟨0, [], none⟩

/-- A normalized frame with a single metric column whose sum is zero. -/
def frameZero : Frame := ⟨1, [⟨"ID", [Cell.num 1]⟩, ⟨"A", [Cell.num 0]⟩], some ["A"]⟩

/-- Raw table with a merged Region+Year column whose fourth value has a
digit-containing prefix. -/
def rawMerged : Frame :=
  ⟨4, [⟨"C", [Cell.str "a2017", Cell.str "b2017", Cell.str "c2017",
    Cell.str "AB12342017"]⟩], none⟩

/-- `loadAndClean` output for `rawMerged`: the merged column was split. -/
def frameMerged : Frame :=
  ⟨4, [⟨"ID", [Cell.num 1, Cell.num 2, Cell.num 3, Cell.num 4]⟩,
    ⟨"State", [Cell.str "a", Cell.str "b", Cell.str "c", Cell.str "AB1234"]⟩,
    ⟨"Year", [Cell.num 2017, Cell.num 2017, Cell.num 2017, Cell.num 2017]⟩],
    some []⟩

/-- A normalized frame that has a `State` column. -/
def frameState : Frame :=
  ⟨1, [⟨"ID", [Cell.num 1]⟩, ⟨"State", [Cell.str "Texas"]⟩, ⟨"A", [Cell.num 3]⟩],
    some ["A"]⟩

/-- A frame whose second and third columns both qualify for the merged
split; only the second (the first qualifying one) is split. -/
def frameSplit : Frame :=
  ⟨3, [⟨"X", [Cell.str "aa", Cell.str "bb", Cell.str "cc"]⟩,
    ⟨"M1", [Cell.str "a2017", Cell.str "b2017", Cell.str "c2017"]⟩,
    ⟨"M2", [Cell.str "x2018", Cell.str "y2018", Cell.str "z2018"]⟩], none⟩

/-- Raw table whose single metric column is literally named `NoData1`,
colliding with the synthetic placeholder namespace. -/
def rawClash : Frame := ⟨1, [⟨"NoData1", [Cell.str "10"]⟩], none⟩

/-- `loadAndClean` output for `rawClash`. -/
def frameClash : Frame :=
  ⟨1, [⟨"ID", [Cell.num 1]⟩, ⟨"NoData1", [Cell.num 10]⟩], some ["NoData1"]⟩

/-! ## The claims -/

/-- C1 counterexample: for the pipeline-reachable table whose only
metric column is named `NoData1`, the padding setitem of line 96
overwrites that entry instead of appending, and `top5_from_df` returns
only 4 (label, value) pairs — not exactly 5. -/
theorem C1_counterexample :
    loadAndClean (some rawClash) = Except.ok frameClash ∧
    (top5 frameClash).length = 4 ∧ ¬ (top5 frameClash).length = 5 :=
  ⟨rfl, by decide, by decide⟩

/-- C1 amended: for every input frame (hence every row subset) whose
effective metric-column list contains no label of the synthetic
`NoData1`..`NoData5` namespace, `top5_from_df` returns exactly 5
(label, value) pairs, sorted by value in non-strictly descending order,
in every fallback branch; a collision with that namespace can make the
padding setitem overwrite instead of append, yielding fewer entries. -/
theorem C1_top5_five_sorted (f : Frame)
    (hnc : ∀ i, i < 5 → noDataLabel i ∉ effCrimeCols f) :
    (top5 f).length = 5 ∧ List.Sorted valGE (top5 f) :=
  ⟨top5_length f hnc, top5_sorted f⟩

/-- C1 witness: the pipeline output for `rawSeven` has no placeholder
collision; its top-5 has exactly 5 entries, sorted. -/
theorem C1_witness :
    (top5 frameSeven).length = 5 ∧ List.Sorted valGE (top5 frameSeven) :=
  C1_top5_five_sorted frameSeven (by decide)

/-- C2 counterexample: on a missing input file `load_and_clean` returns a
frame with zero columns — there is no `ID` column and no metric-column
attribute — so the claimed "exactly one column named ID" is false. -/
theorem C2_counterexample :
    loadAndClean none = Except.ok emptyFrame ∧
      emptyFrame.cols.map Column.name ≠ ["ID"] ∧ emptyFrame.crimeCols = none :=
  ⟨rfl, by decide, rfl⟩

/-- C2 amended: when the input file does not exist the pipeline returns,
raising no exception, an empty frame with zero rows, zero columns (in
particular no `ID` column) and no metric-column attribute; the Aggregator
then falls into its all-placeholder branch. -/
theorem C2_missing_file_empty :
    loadAndClean none = Except.ok emptyFrame ∧ emptyFrame.nrows = 0 ∧
      emptyFrame.cols = [] ∧ emptyFrame.crimeCols = none ∧
      top5 emptyFrame = [(noDataLabel 0, 0), (noDataLabel 1, 0), (noDataLabel 2, 0),
        (noDataLabel 3, 0), (noDataLabel 4, 0)] :=
  ⟨rfl, rfl, rfl, rfl, rfl⟩

/-- C3: the merged-column split happens iff at least 3 of the first (up
to) 30 sampled values of some column match the non-digits-then-4-trailing-
digits pattern, and only the first qualifying column in left-to-right
order is split (the scan stops at the first match). -/
theorem C3_split_first_match (f : Frame) :
    ((∀ c ∈ f.cols, ¬ 3 ≤ sampleCount c) → splitMergedFrame f = f) ∧
    (∀ i, (hi : i < f.cols.length) → 3 ≤ sampleCount (f.cols.get ⟨i, hi⟩) →
      (∀ j, (hj : j < i) → ¬ 3 ≤ sampleCount (f.cols.get ⟨j, Nat.lt_trans hj hi⟩)) →
      splitMergedFrame f = applySplit f (f.cols.get ⟨i, hi⟩)) := by
  constructor
  · intro h
    unfold splitMergedFrame
    rw [List.find?_eq_none.mpr (fun c hc => by simpa [qualifies] using h c hc)]
  · intro i hi hq hprev
    unfold splitMergedFrame
    rw [find?_first qualifies f.cols i hi
      (fun j hj => by simpa [qualifies] using hprev j hj)
      (by simpa [qualifies] using hq)]

/-- C3 witness: in `frameSplit` the columns `M1` and `M2` both qualify;
the split is applied to `M1`, the first qualifying column. -/
theorem C3_witness :
    splitMergedFrame frameSplit
      = applySplit frameSplit (frameSplit.cols.get ⟨1, by decide⟩) :=
  (C3_split_first_match frameSplit).2 1 (by decide) (by decide)
    (fun j hj => by
      have hj0 : j = 0 := by omega
      subst hj0
      show ¬ 3 ≤ sampleCount ⟨"X", [Cell.str "aa", Cell.str "bb", Cell.str "cc"]⟩
      decide)

/-- C4 counterexample: in the split of `rawMerged`'s merged column, the
row value `"AB12342017"` yields Region `"AB1234"`, which contains digits
and differs from the leading non-digit prefix `"AB"` that the claim
describes. -/
theorem C4_counterexample :
    loadAndClean (some rawMerged) = Except.ok frameMerged ∧
    colCells frameMerged "State"
      = [Cell.str "a", Cell.str "b", Cell.str "c", Cell.str "AB1234"] ∧
    specLeadingNonDigit "AB12342017" = "AB" ∧
    Cell.str "AB1234" ≠ Cell.str (specLeadingNonDigit "AB12342017") ∧
    ("AB1234".toList.any Char.isDigit) = true :=
  ⟨rfl, by decide, by decide, by decide, by decide⟩

/-- C4 amended: when a merged column is split, a row value consisting of
any non-empty prefix followed by 4 digits yields Region = that whole
prefix trimmed (it may contain digits — it is everything before the
trailing 4 digits, not the leading non-digit prefix) and Year = the
numeric value of the trailing 4 digits. -/
theorem C4_split_extraction (pre : List Char) (a b c d : Char) (hpre : pre ≠ [])
    (ha : a.isDigit = true) (hb : b.isDigit = true) (hc2 : c.isDigit = true)
    (hd : d.isDigit = true) :
    stateCell (Cell.str ⟨pre ++ [a, b, c, d]⟩) = Cell.str (pyStrip ⟨pre⟩) ∧
    yearCell (Cell.str ⟨pre ++ [a, b, c, d]⟩)
      = Cell.num ((digitsToNat [a, b, c, d] : Nat) : Int) := by
  have he := extractMerged_eq pre a b c d hpre ha hb hc2 hd
  constructor
  · unfold stateCell
    rw [show cellToStr (Cell.str ⟨pre ++ [a, b, c, d]⟩)
      = (⟨pre ++ [a, b, c, d]⟩ : String) from rfl, he]
  · unfold yearCell
    rw [show cellToStr (Cell.str ⟨pre ++ [a, b, c, d]⟩)
      = (⟨pre ++ [a, b, c, d]⟩ : String) from rfl, he]
    show (match parseNumeric ⟨[a, b, c, d]⟩ with
      | some n => Cell.num n
      | none => Cell.na) = Cell.num ((digitsToNat [a, b, c, d] : Nat) : Int)
    rw [parseNumeric_digits [a, b, c, d] (by simp) (by
      intro x hx
      simp only [List.mem_cons, List.not_mem_nil, or_false] at hx
      rcases hx with rfl | rfl | rfl | rfl
      · exact ha
      · exact hb
      · exact hc2
      · exact hd)]

/-- C4 witness: `"Texas2017"` splits into Region `"Texas"` and Year 2017
(as the digits-value of `"2017"`). -/
theorem C4_witness :
    stateCell (Cell.str ⟨['T', 'e', 'x', 'a', 's'] ++ ['2', '0', '1', '7']⟩)
        = Cell.str (pyStrip ⟨['T', 'e', 'x', 'a', 's']⟩) ∧
      yearCell (Cell.str ⟨['T', 'e', 'x', 'a', 's'] ++ ['2', '0', '1', '7']⟩)
        = Cell.num ((digitsToNat ['2', '0', '1', '7'] : Nat) : Int) :=
  C4_split_extraction ['T', 'e', 'x', 'a', 's'] '2' '0' '1' '7'
    (by decide) (by decide) (by decide) (by decide) (by decide)

/-- C5 counterexample: the metric value `"-5"` coerces to the negative
number -5, contradicting the claimed non-negativity of coerced metric
values. -/
theorem C5_counterexample :
    loadAndClean (some rawNeg) = Except.ok frameNeg ∧
    frameNeg.crimeCols = some ["A"] ∧
    colCells frameNeg "A" = [Cell.num (-5)] ∧
    ¬ (0 : Int) ≤ -5 :=
  ⟨rfl, rfl, rfl, by decide⟩

/-- C5 amended: after the NumericCoercer runs, every value in every
metric column is a number (never missing, never a propagated error):
commas and surrounding whitespace are stripped before parsing, an empty
string coerces to zero and an unparseable value coerces to zero — but
the value need not be non-negative. -/
theorem C5_metric_values_numeric :
    (∀ raw t, loadAndClean (some raw) = Except.ok t →
      ∀ n ∈ t.crimeCols.getD [], ∀ c ∈ colCells t n, isNum c = true) ∧
    coerceCell (Cell.str " 1,234 ") = Cell.num 1234 ∧
    coerceCell (Cell.str "") = Cell.num 0 ∧
    coerceCell (Cell.str "abc") = Cell.num 0 ∧
    coerceCell Cell.na = Cell.num 0 := by
  refine ⟨?_, by decide, by decide, by decide, by decide⟩
  intro raw t h n hn c hc
  exact loadAndClean_metric_isNum raw t h n hn c hc

/-- C5 witness: the coerced metric cell of `rawSeven`'s pipeline output
is a number. -/
theorem C5_witness : isNum (Cell.num 7) = true :=
  C5_metric_values_numeric.1 rawSeven frameSeven rfl "A" (by decide)
    (Cell.num 7) (by decide)

/-- C6: the NumericCoercer stage (coercion plus metric-column selection,
lines 50-68) is idempotent: a second run on an already-coerced frame
changes neither the cells nor the `crime_cols` list. -/
theorem C6_coercer_idempotent (f : Frame) :
    numericCoerce (numericCoerce f) = numericCoerce f :=
  numericCoerce_idem f

/-- C7 counterexample: with exactly one metric column `A` of sum 0, the
output contains the synthetic placeholder label `NoData1`, which is not
drawn from the metric-column list. -/
theorem C7_counterexample :
    frameZero.crimeCols = some ["A"] ∧ colSum frameZero "A" = 0 ∧
    "NoData1" ∈ (top5 frameZero).map Prod.fst ∧ "NoData1" ∉ ["A"] :=
  ⟨rfl, by decide, by decide, by decide⟩

/-- C7 amended: if every metric column sums to zero under a row subset
and at least one metric column exists, every output value is 0 and every
output label is either a real metric column or a `NoData` placeholder;
when at least 5 metric columns exist, every label is drawn from the real
metric-column list (no placeholders) — with fewer than 5 metric columns,
placeholders can appear. -/
theorem C7_zero_sums (f : Frame) (cc : List String) (hcc : f.crimeCols = some cc)
    (_hne : cc ≠ []) (hz : ∀ n ∈ cc, colSum f n = 0) :
    (∀ p ∈ top5 f, p.2 = 0) ∧
    (∀ p ∈ top5 f, p.1 ∈ cc ∨ ∃ i, i < 5 ∧ p.1 = noDataLabel i) ∧
    (5 ≤ cc.length → ∀ p ∈ top5 f, p.1 ∈ cc) := by
  have hcc2 : effCrimeCols f = cc := by
    unfold effCrimeCols
    rw [hcc, Option.getD_some]
  refine ⟨?_, ?_, ?_⟩
  · intro p hp
    rcases top5_mem f p hp with ⟨n, hn, rfl⟩ | ⟨i, hi, rfl⟩
    · exact hz n (hcc2 ▸ hn)
    · rfl
  · intro p hp
    rcases top5_mem f p hp with ⟨n, hn, rfl⟩ | ⟨i, hi, rfl⟩
    · exact Or.inl (hcc2 ▸ hn)
    · exact Or.inr ⟨i, hi, rfl⟩
  · intro h5
    exact top5_labels_real_of_zero f cc hcc h5 hz

/-- C7 witness: `frameZero` has one all-zero metric column `A`; the
entry `("A", 0)` of its top-5 has value 0 and a real or placeholder
label. -/
theorem C7_witness :
    ("A", (0 : Int)).1 ∈ ["A"] ∨ ∃ i, i < 5 ∧ ("A", (0 : Int)).1 = noDataLabel i :=
  (C7_zero_sums frameZero ["A"] rfl (by decide) (by decide)).2.1 ("A", 0) (by decide)

/-- C8: after normalization the `ID` column is exactly the contiguous
sequence 1..N in row order, and year or region row filtering never
renumbers the IDs of the surviving rows (they remain a subsequence of
the original IDs). -/
theorem C8_id_contiguous_stable (raw t : Frame)
    (h : loadAndClean (some raw) = Except.ok t) :
    colCells t "ID" = (List.range t.nrows).map (fun i => Cell.num ((i : Int) + 1)) ∧
    (∀ y g, applyYearFilter t y = Except.ok g →
      (colCells g "ID").Sublist (colCells t "ID")) ∧
    (∀ s, (colCells (filterFrame t (stateMask t s)) "ID").Sublist
      (colCells t "ID")) := by
  refine ⟨?_, ?_, ?_⟩
  · unfold colCells
    rw [loadAndClean_id_col raw t h]
    rfl
  · intro y g hg
    obtain ⟨v, rfl⟩ := applyYearFilter_ok t y g hg
    exact filterFrame_id_sublist t _
  · intro s
    exact filterFrame_id_sublist t _

/-- C8 witness: the pipeline output of `rawSeven` has ID column `[1]`. -/
theorem C8_witness :
    colCells frameSeven "ID"
      = (List.range frameSeven.nrows).map (fun i => Cell.num ((i : Int) + 1)) :=
  (C8_id_contiguous_stable rawSeven frameSeven rfl).1

/-- C9 counterexample: a region-filter request on the empty frame (the
pipeline output for a missing file) raises a `KeyError` out of the
handler, contradicting "never surfaces an error". -/
theorem C9_counterexample :
    loadAndClean none = Except.ok emptyFrame ∧
    updateState (some "Texas") emptyFrame = Except.error "KeyError: State" :=
  ⟨rfl, rfl⟩

/-- C9 amended: a year-filter request never surfaces an error; a
region-filter request succeeds whenever the filter is absent/sentinel or
the table has a `State` column, and raises `KeyError` exactly when a
non-sentinel region filter is applied to a table without that column;
whenever no metric column label collides with the `NoData` placeholder
namespace, every returned result has exactly 5 entries. -/
theorem C9_requests (f : Frame)
    (hnc : ∀ i, i < 5 → noDataLabel i ∉ effCrimeCols f) :
    (∀ yp, (updateYear yp f).length = 5) ∧
    (∀ sp, hasCol f "State" = true → okLength (updateState sp f) = some 5) ∧
    updateState none f = Except.ok (top5 f) ∧
    updateState (some "All") f = Except.ok (top5 f) ∧
    (∀ s, s ≠ "" → s ≠ "All" → hasCol f "State" = false →
      updateState (some s) f = Except.error "KeyError: State") := by
  refine ⟨?_, ?_, rfl, rfl, ?_⟩
  · intro yp
    cases yp with
    | none => exact top5_length f hnc
    | some y =>
      simp only [updateYear]
      split
      · exact top5_length f hnc
      · cases happ : applyYearFilter f y with
        | ok g =>
          obtain ⟨v, rfl⟩ := applyYearFilter_ok f y g happ
          exact top5_length _ (by rw [effCrimeCols_filterFrame]; exact hnc)
        | error e => exact top5_length f hnc
  · intro sp hs
    cases sp with
    | none =>
      show some (top5 f).length = some 5
      rw [top5_length f hnc]
    | some s =>
      rw [updateState_some]
      split
      · show some (top5 f).length = some 5
        rw [top5_length f hnc]
      · show some (top5 (filterFrame f (stateMask f s))).length = some 5
        rw [top5_length _ (by rw [effCrimeCols_filterFrame]; exact hnc)]
  · intro s h1 h2 h3
    rw [updateState_some, if_neg (by simp [h1, h2]), if_neg (by rw [h3]; simp)]

/-- C9 witness: a region-filter request on a collision-free frame that
has a `State` column returns a 5-entry result. -/
theorem C9_witness : okLength (updateState (some "Texas") frameState) = some 5 :=
  (C9_requests frameState (by decide)).2.1 (some "Texas") (by decide)

/-- C10: in `update_year` the `try/except` wraps both the parse of the
filter value and the row selection, so an unparseable year or a missing
`Year` column is silently recovered as "no filter applied": the full row
set is aggregated and no error escapes. -/
theorem C10_year_filter_guarded (f : Frame) (y : String)
    (h : hasCol f "Year" = false ∨ pyFloat y = none) :
    updateYear (some y) f = top5 f := by
  simp only [updateYear]
  split
  · rfl
  · cases hp : pyFloat y with
    | none => rw [applyYearFilter_none f y hp]
    | some v =>
      rcases h with h | h
      · rw [applyYearFilter_some f y v hp, if_neg (by rw [h]; simp)]
      · rw [h] at hp
        exact Option.noConfusion hp

/-- C10 witness: a year filter applied to a frame with no `Year` column
aggregates the full frame instead of raising. -/
theorem C10_witness : updateYear (some "2019") frameSeven = top5 frameSeven :=
  C10_year_filter_guarded frameSeven "2019" (Or.inl (by decide))

end Crimes
